import Mathlib

/-!
Verification of the trade-trackr statement-cleaning pipeline.

The Python sources (`trades_cleaning.py`, `cleaning.py`,
`aws_textract_table_extractor.py`) are shallowly embedded below:
pure functions become Lean functions, pandas tables become explicit
lists of rows, raised exceptions become `Except`/`Option` error values,
and the pandas missing-value marker `NaN` becomes `Option.none`.
All string computations are carried out on `List Char` (`String.data`)
so that every definition is executable and every concrete instance can
be settled by `decide`/`rfl`.
-/

/-! ## String primitives

Models of the Python `str` operations used by the pipeline, restricted
to the ASCII fragment that the statement data exercises. -/

/-- Model of Python `str.upper()` (ASCII letters). -/
def upperStr (s : String) : String :=
  ⟨s.data.map Char.toUpper⟩

/-- Is `p` a prefix of `s` (list form)?  Model of the anchored part of
Python `str.startswith`. -/
def prefixOfL : List Char → List Char → Bool
  | [], _ => true
  | _ :: _, [] => false
  | a :: p, b :: s => a == b && prefixOfL p s

/-- Does `p` occur as a contiguous substring of `s` (list form)?  Model of
the Python expression `p in s` on strings. -/
def hasSubstr (p : List Char) : List Char → Bool
  | [] => prefixOfL p []
  | s@(_ :: rest) => prefixOfL p s || hasSubstr p rest

/-- Model of Python `str.startswith`: `py_startswith s p` is `s.startswith(p)`. -/
def py_startswith (s p : String) : Bool :=
  prefixOfL p.data s.data

/-- Strip leading and trailing whitespace: model of Python `str.strip()`. -/
def trimL (cs : List Char) : List Char :=
  ((cs.dropWhile Char.isWhitespace).reverse.dropWhile Char.isWhitespace).reverse

/-- Model of Python `str.strip()` on `String`. -/
def pyStrip (s : String) : String :=
  ⟨trimL s.data⟩

/-- Specification-level substring predicate: `SubstrP p s` holds when the
characters of `p` occur contiguously inside `s`. -/
def SubstrP (p s : String) : Prop :=
  ∃ l r, s.data = l ++ p.data ++ r

theorem prefixOfL_iff (p cs : List Char) :
    prefixOfL p cs = true ↔ ∃ r, cs = p ++ r := by
  induction p generalizing cs with
  | nil => simp [prefixOfL]
  | cons a p ih =>
    cases cs with
    | nil => simp [prefixOfL]
    | cons b s =>
      simp only [prefixOfL, Bool.and_eq_true, beq_iff_eq, ih]
      constructor
      · rintro ⟨rfl, r, rfl⟩
        exact ⟨r, rfl⟩
      · rintro ⟨r, hr⟩
        cases hr
        exact ⟨rfl, r, rfl⟩

theorem hasSubstr_iff_list (p cs : List Char) :
    hasSubstr p cs = true ↔ ∃ l r, cs = l ++ p ++ r := by
  induction cs with
  | nil =>
    simp only [hasSubstr, prefixOfL_iff]
    constructor
    · rintro ⟨r, hr⟩
      exact ⟨[], r, hr⟩
    · rintro ⟨l, r, hr⟩
      obtain ⟨h1, h2⟩ := List.append_eq_nil.mp hr.symm
      obtain ⟨h3, h4⟩ := List.append_eq_nil.mp h1
      subst h4
      exact ⟨r, h2.symm⟩
  | cons b s ih =>
    simp only [hasSubstr, Bool.or_eq_true, prefixOfL_iff, ih]
    constructor
    · rintro (⟨r, hr⟩ | ⟨l, r, hr⟩)
      · exact ⟨[], r, by simpa using hr⟩
      · exact ⟨b :: l, r, by simp [hr]⟩
    · rintro ⟨l, r, hr⟩
      cases l with
      | nil => exact Or.inl ⟨r, by simpa using hr⟩
      | cons x l =>
        right
        injection hr with h1 h2
        exact ⟨l, r, h2⟩

theorem hasSubstr_iff (p s : String) :
    hasSubstr p.data s.data = true ↔ SubstrP p s :=
  hasSubstr_iff_list p.data s.data

instance (p s : String) : Decidable (SubstrP p s) :=
  decidable_of_iff (hasSubstr p.data s.data = true) (hasSubstr_iff p s)

/-! ## Lifecycle classification (`trades_cleaning.classify_action`)

The Python function receives arbitrary scalars coming from a pandas
column: real code strings, or the float `nan` that pandas puts in an
empty `Code` cell.  `str()` renders the latter as `"nan"`. -/

/-- A Python scalar as it reaches `classify_action`: either a string or
the pandas missing-value float `nan`. -/
inductive PyVal where
  | pstr : String → PyVal
  | pnan : PyVal
deriving DecidableEq, Repr

/-- Model of Python `str()` on the scalars above (`str(nan) = "nan"`). -/
def pyStr : PyVal → String
  | .pstr s => s
  | .pnan => "nan"

/-- Embedding of `trades_cleaning.classify_action` (lines 108-116):
`code = str(code).upper()`; return `'OPEN'` if `'O' in code`; else
`'CLOSED'` if any of `'C'`, `'A'`, `'EP'`, `'EX'` occurs in `code`;
else `'UNKNOWN'`. -/
def classify_action (code : PyVal) : String :=
  let c := upperStr (pyStr code)
  if hasSubstr "O".data c.data then "OPEN"
  else if ["C", "A", "EP", "EX"].any (fun x => hasSubstr x.data c.data) then "CLOSED"
  else "UNKNOWN"

/-- Claim C1: the spec (and the repository's own test file
`test_statement_cleaning.py`) states that `classify_action("C")`,
`classify_action("A;C")` and `classify_action("Ep")` return `CLOSE`;
the code returns the literal string `"CLOSED"` on each of these inputs,
which differs from `"CLOSE"` (the `OPEN`/`UNKNOWN` literals do match). -/
theorem classify_action_close_literal_bug :
    classify_action (.pstr "C") = "CLOSED" ∧
    classify_action (.pstr "A;C") = "CLOSED" ∧
    classify_action (.pstr "Ep") = "CLOSED" ∧
    classify_action (.pstr "O") = "OPEN" ∧
    classify_action (.pstr "o") = "OPEN" ∧
    classify_action (.pstr " ") = "UNKNOWN" ∧
    ("CLOSED" : String) ≠ "CLOSE" := by
  refine ⟨rfl, rfl, rfl, rfl, rfl, rfl, ?_⟩
  decide

/-- Claim C9: a missing lifecycle code (pandas `NaN`) is stringified to
`"nan"`, uppercased to `"NAN"`, which contains `"A"` but not `"O"`, so
`classify_action` classifies it as closed (`"CLOSED"`), never
`"UNKNOWN"`; in general every scalar whose uppercased string form
contains `"A"` but no `"O"` is classified `"CLOSED"`. -/
theorem classify_action_nan_closed :
    classify_action .pnan = "CLOSED" ∧
    pyStr .pnan = "nan" ∧
    ∀ v : PyVal, SubstrP "A" (upperStr (pyStr v)) →
      ¬ SubstrP "O" (upperStr (pyStr v)) →
      classify_action v = "CLOSED" := by
  refine ⟨rfl, rfl, ?_⟩
  intro v hA hO
  unfold classify_action
  have hOb : hasSubstr "O".data (upperStr (pyStr v)).data = false := by
    rw [← Bool.not_eq_true, hasSubstr_iff]
    exact hO
  have hAb : hasSubstr "A".data (upperStr (pyStr v)).data = true :=
    (hasSubstr_iff _ _).mpr hA
  simp [hOb, hAb]

/-- Witness for `classify_action_nan_closed`: the hypotheses hold at the
missing-value scalar itself. -/
theorem classify_action_nan_closed_witness :
    classify_action .pnan = "CLOSED" :=
  classify_action_nan_closed.2.2 .pnan (by decide) (by decide)

/-! ## Symbol descriptor parsing (`trades_cleaning.parse_ibkr_symbol`)

The Python function trims its input, then applies the anchored regex
`^([A-Z]+)\s+(\d{2}[A-Z]{3}\d{2})\s+([\d\.]+)\s+([CPcp])` via
`re.search`.  Because consecutive character classes in the pattern are
pairwise disjoint, the backtracking search is equivalent to the
deterministic maximal-munch scan implemented by `optionMatch` below.
On a match, the date token is parsed with
`datetime.strptime(_, "%d%b%y")` (which raises `ValueError` on an
invalid calendar date) and the strike with `float()` (which raises
`ValueError` on inputs like `"."`); otherwise the stock fallback runs.
A `none` result models a raised exception. -/

/-- ASCII uppercase letter, the regex class `[A-Z]`. -/
def isUpperAZ (c : Char) : Bool :=
  'A' ≤ c && c ≤ 'Z'

/-- The regex class `[\d\.]`. -/
def isDigitDot (c : Char) : Bool :=
  c.isDigit || c == '.'

/-- Deterministic model of the anchored option regex: on success returns
the four capture groups (ticker, date token, strike token, right flag). -/
def optionMatch (cs : List Char) : Option (List Char × List Char × List Char × Char) :=
  let t := cs.takeWhile isUpperAZ
  let r1 := cs.dropWhile isUpperAZ
  if t.isEmpty then none else
  let w1 := r1.takeWhile Char.isWhitespace
  let r2 := r1.dropWhile Char.isWhitespace
  if w1.isEmpty then none else
  match r2 with
  | d1 :: d2 :: m1 :: m2 :: m3 :: y1 :: y2 :: rest =>
    if d1.isDigit && d2.isDigit && isUpperAZ m1 && isUpperAZ m2 && isUpperAZ m3
        && y1.isDigit && y2.isDigit then
      let w2 := rest.takeWhile Char.isWhitespace
      let r3 := rest.dropWhile Char.isWhitespace
      if w2.isEmpty then none else
      let st := r3.takeWhile isDigitDot
      let r4 := r3.dropWhile isDigitDot
      if st.isEmpty then none else
      let w3 := r4.takeWhile Char.isWhitespace
      let r5 := r4.dropWhile Char.isWhitespace
      if w3.isEmpty then none else
      match r5 with
      | c :: _ =>
        if c == 'C' || c == 'P' || c == 'c' || c == 'p' then
          some (t, [d1, d2, m1, m2, m3, y1, y2], st, c)
        else none
      | [] => none
    else none
  | _ => none

/-- Numeric value of a digit string (most significant first). -/
def digitsNat (cs : List Char) : Nat :=
  cs.foldl (fun a c => a * 10 + (c.toNat - 48)) 0

/-- Model of Python `float()` on a token drawn from the class `[\d\.]+`:
an optional run of digits, optionally followed by a dot and a run of
digits, with at least one digit overall; anything else (extra dots,
a lone dot) raises `ValueError`, modelled as `none`. -/
def parseFloat (cs : List Char) : Option ℚ :=
  let intPart := cs.takeWhile Char.isDigit
  let rest := cs.dropWhile Char.isDigit
  match rest with
  | [] => if intPart.isEmpty then none else some (digitsNat intPart : ℚ)
  | '.' :: frac =>
    if frac.all Char.isDigit && !(intPart.isEmpty && frac.isEmpty) then
      some ((digitsNat intPart : ℚ) + (digitsNat frac : ℚ) / (10 : ℚ) ^ frac.length)
    else none
  | _ => none

/-- Three-letter month abbreviations accepted by `strptime`'s `%b`
(the regex has already forced them to be uppercase). -/
def monthNum : List Char → Option Nat
  | ['J', 'A', 'N'] => some 1
  | ['F', 'E', 'B'] => some 2
  | ['M', 'A', 'R'] => some 3
  | ['A', 'P', 'R'] => some 4
  | ['M', 'A', 'Y'] => some 5
  | ['J', 'U', 'N'] => some 6
  | ['J', 'U', 'L'] => some 7
  | ['A', 'U', 'G'] => some 8
  | ['S', 'E', 'P'] => some 9
  | ['O', 'C', 'T'] => some 10
  | ['N', 'O', 'V'] => some 11
  | ['D', 'E', 'C'] => some 12
  | _ => none

/-- Python `%y`: two-digit years 00-68 mean 2000-2068, 69-99 mean 1969-1999. -/
def yearFrom2 (y : Nat) : Nat :=
  if y ≤ 68 then 2000 + y else 1900 + y

def isLeap (y : Nat) : Bool :=
  (y % 4 == 0 && y % 100 != 0) || y % 400 == 0

def daysInMonth (y m : Nat) : Nat :=
  if m = 2 then (if isLeap y then 29 else 28)
  else if m = 4 ∨ m = 6 ∨ m = 9 ∨ m = 11 then 30
  else 31

/-- Model of `datetime.strptime(token, "%d%b%y")` on the 7-character
date token produced by the regex: returns `(year, month, day)` for a
valid calendar date, `none` (a raised `ValueError`) otherwise. -/
def strptime_dby (cs : List Char) : Option (Nat × Nat × Nat) :=
  match cs with
  | [d1, d2, m1, m2, m3, y1, y2] =>
    match monthNum [m1, m2, m3] with
    | none => none
    | some m =>
      let day := digitsNat [d1, d2]
      let year := yearFrom2 (digitsNat [y1, y2])
      if 1 ≤ day ∧ day ≤ daysInMonth year m then some (year, m, day) else none
  | _ => none

/-- Two-digit zero padding, as in `strftime("%m"/"%d")`. -/
def pad2 (n : Nat) : String :=
  if n < 10 then "0" ++ toString n else toString n

/-- Model of `strftime("%Y-%m-%d")`. -/
def isoStr (y m d : Nat) : String :=
  toString y ++ "-" ++ pad2 m ++ "-" ++ pad2 d

/-- The record returned by `parse_ibkr_symbol` (a Python dict with the
four keys `Symbol`, `Expiry`, `Strike`, `Instrument`). -/
structure ParsedSymbol where
  Symbol : String
  Expiry : Option String
  Strike : ℚ
  Instrument : String
deriving DecidableEq, Repr

/-- Python `symbol.split(' ')[0]`: the characters before the first
space character (the whole string when it has no space). -/
def firstSpaceToken (cs : List Char) : List Char :=
  cs.takeWhile (fun c => c != ' ')

/-- Embedding of `trades_cleaning.parse_ibkr_symbol` (lines 76-106).
`none` models a raised `ValueError` (from `strptime` on an invalid
calendar date or from `float` on a malformed strike token). -/
def parse_ibkr_symbol (symbol0 : String) : Option ParsedSymbol :=
  let cs := trimL symbol0.data
  match optionMatch cs with
  | some (t, dt, st, r) =>
    match strptime_dby dt, parseFloat st with
    | some (y, m, d), some q =>
      some ⟨⟨t⟩, some (isoStr y m d), q,
            if r == 'C' || r == 'c' then "Call Option" else "Put Option"⟩
    | _, _ => none
  | none => some ⟨⟨firstSpaceToken cs⟩, none, 0, "Stock"⟩

/-- Claim C2 counterexample: `"AMAT 32JAN25 220 C"` matches the option
regex, but `strptime` rejects day 32, so `parse_ibkr_symbol` raises
`ValueError` (modelled as `none`) instead of returning a result; the
function is therefore not total. -/
theorem parse_ibkr_symbol_not_total :
    parse_ibkr_symbol "AMAT 32JAN25 220 C" = none := by
  decide

/-- Claim C2 amended: `parse_ibkr_symbol` is pure, and on every input
that does not match the option regex it falls through to the stock case
(Symbol is the substring of the trimmed input before the first space,
`Instrument = "Stock"`, `Strike = 0`, no expiry), with the empty string
giving an empty Symbol; but it is not total on all strings: an input
matching the regex whose date token is not a valid calendar date (or
whose strike token is not a valid float) raises `ValueError`. -/
theorem parse_ibkr_symbol_stock_fallback :
    (∀ s : String, optionMatch (trimL s.data) = none →
        parse_ibkr_symbol s =
          some ⟨⟨firstSpaceToken (trimL s.data)⟩, none, 0, "Stock"⟩) ∧
    parse_ibkr_symbol "" = some ⟨"", none, 0, "Stock"⟩ ∧
    parse_ibkr_symbol "AMAT 32JAN25 220 C" = none := by
  refine ⟨?_, by decide, by decide⟩
  intro s h
  simp only [parse_ibkr_symbol, h]

/-- Witness for `parse_ibkr_symbol_stock_fallback`: an input that does
not match the option regex. -/
theorem parse_ibkr_symbol_stock_fallback_witness :
    parse_ibkr_symbol "hello world" = some ⟨"hello", none, 0, "Stock"⟩ := by
  have h := parse_ibkr_symbol_stock_fallback.1 "hello world" (by decide)
  simpa using h

/-- Claim C3: on an input matched by the option regex whose date token
is a valid calendar date and whose strike token is a valid float,
`parse_ibkr_symbol` returns the ticker, the ISO form of the expiry, the
strike as a decimal, and `"Call Option"` for right `C`/`c` else
`"Put Option"`; concretely for `"AMAT 05DEC25 220 C"` and `"AMAT"`. -/
theorem parse_ibkr_symbol_spec :
    (∀ (s : String) (t dt st : List Char) (r : Char) (y m d : Nat) (q : ℚ),
        optionMatch (trimL s.data) = some (t, dt, st, r) →
        strptime_dby dt = some (y, m, d) →
        parseFloat st = some q →
        parse_ibkr_symbol s = some ⟨⟨t⟩, some (isoStr y m d), q,
          if r == 'C' || r == 'c' then "Call Option" else "Put Option"⟩) ∧
    parse_ibkr_symbol "AMAT 05DEC25 220 C" =
      some ⟨"AMAT", some "2025-12-05", 220, "Call Option"⟩ ∧
    parse_ibkr_symbol "AMAT" = some ⟨"AMAT", none, 0, "Stock"⟩ := by
  refine ⟨?_, by decide, by decide⟩
  intro s t dt st r y m d q h1 h2 h3
  simp only [parse_ibkr_symbol, h1, h2, h3]

/-- Witness for `parse_ibkr_symbol_spec`: the regex hypotheses hold at
`"AMAT 05DEC25 220 C"`. -/
theorem parse_ibkr_symbol_spec_witness :
    parse_ibkr_symbol "AMAT 05DEC25 220 C" =
      some ⟨"AMAT", some (isoStr 2025 12 5), 220, "Call Option"⟩ := by
  have h := parse_ibkr_symbol_spec.1 "AMAT 05DEC25 220 C"
    "AMAT".data "05DEC25".data "220".data 'C' 2025 12 5 220
    (by decide) (by decide) (by decide)
  simpa using h

/-! ## Numeric coercion and net cash (`trades_cleaning` main pipeline)

`clean_df[col].astype(str).str.replace(',', '').apply(pd.to_numeric,
errors='coerce')` (lines 144-148) strips every comma from the string
form of each value and then parses it as a number, turning any parse
failure into the missing value `NaN` instead of raising.
`calculate_net_cash` (lines 58-63) adds `Proceeds` and `Comm/Fee`;
float addition propagates `NaN`.  `NaN` is modelled as `none`. -/

/-- Model of `str.replace(',', '')`: remove every comma. -/
def strip_commas (s : String) : String :=
  ⟨s.data.filter (fun c => c != ',')⟩

/-- Exponent suffix of a float literal: optional sign and a nonempty
digit run. -/
def parseExpPart : List Char → Option ℤ
  | '+' :: ds => if !ds.isEmpty && ds.all Char.isDigit then some (digitsNat ds) else none
  | '-' :: ds => if !ds.isEmpty && ds.all Char.isDigit then some (-(digitsNat ds : ℤ)) else none
  | ds => if !ds.isEmpty && ds.all Char.isDigit then some (digitsNat ds) else none

/-- Unsigned part of a numeric literal: `digits[.digits]` or `.digits`,
optionally followed by an `e`/`E` exponent. -/
def parseMag (cs : List Char) : Option ℚ :=
  let m := cs.takeWhile isDigitDot
  let rest := cs.dropWhile isDigitDot
  match parseFloat m with
  | none => none
  | some q =>
    match rest with
    | [] => some q
    | 'e' :: e => (parseExpPart e).map (fun k => q * (10 : ℚ) ^ k)
    | 'E' :: e => (parseExpPart e).map (fun k => q * (10 : ℚ) ^ k)
    | _ => none

/-- Model of `pd.to_numeric(value, errors='coerce')` on a string value:
surrounding whitespace is ignored, an optional sign precedes a decimal
literal with optional exponent; any other string (including `"nan"`)
coerces to the missing value `NaN`, modelled as `none`. -/
def to_numeric_coerce (s : String) : Option ℚ :=
  match trimL s.data with
  | '+' :: rest => parseMag rest
  | '-' :: rest => (parseMag rest).map (fun q => -q)
  | cs => parseMag cs

/-- Per-value numeric cleaning of the `Quantity`, `Proceeds`,
`Comm/Fee` and `Strike` columns (lines 144-148): comma-strip first,
then coerce, failures becoming `NaN`. -/
def coerce_numeric (s : String) : Option ℚ :=
  to_numeric_coerce (strip_commas s)

/-- Embedding of `trades_cleaning.calculate_net_cash` (lines 58-63):
`Proceeds + Comm/Fee`, with `NaN` (modelled `none`) propagating through
the float addition. -/
def calculate_net_cash (proceeds commFee : Option ℚ) : Option ℚ :=
  match proceeds, commFee with
  | some p, some c => some (p + c)
  | _, _ => none

/-- Claim C6: thousands-separator commas are stripped before parsing
(`"1,234"` parses to `1234` although the unstripped string does not
parse); a value that fails to parse becomes the missing marker `NaN`
(`none`), never zero; and the missing marker propagates through
`Net Cash = Proceeds + Comm/Fee`, so unparseable Proceeds give missing
Net Cash; no per-value failure raises (the coercion is a total
function into `Option`). -/
theorem numeric_coercion_spec :
    coerce_numeric "1,234" = some (1234 : ℚ) ∧
    to_numeric_coerce "1,234" = none ∧
    coerce_numeric "abc" = none ∧
    (∀ s : String, to_numeric_coerce (strip_commas s) = none →
        coerce_numeric s = none) ∧
    (∀ o : Option ℚ, calculate_net_cash none o = none) ∧
    (∀ o : Option ℚ, calculate_net_cash o none = none) ∧
    (∀ (s : String) (o : Option ℚ), coerce_numeric s = none →
        calculate_net_cash (coerce_numeric s) o = none) := by
  refine ⟨by decide, by decide, by decide, ?_, ?_, ?_, ?_⟩
  · intro s h
    simpa [coerce_numeric] using h
  · intro o
    rfl
  · intro o
    cases o <;> rfl
  · intro s o h
    rw [h]
    rfl

/-- Witness for `numeric_coercion_spec`: the unparseable value `"abc"`
propagates as missing through net cash. -/
theorem numeric_coercion_spec_witness :
    calculate_net_cash (coerce_numeric "abc") (some 5) = none :=
  numeric_coercion_spec.2.2.2.2.2.2 "abc" (some 5) (by decide)

/-! ## CSV normalization (`trades_cleaning.load_and_normalize_csv`)

A raw CSV artefact read with `pd.read_csv(filepath, header=None,
names=range(20))` is modelled as a list of rows of optional strings:
`none` is a `NaN` cell (an empty field), `some s` a text cell, and
each row is conceptually padded to the 20 positional columns
(out-of-range reads yield `none`).  Raised exceptions (`ValueError`
from the validation checks, `KeyError` from a pandas column lookup)
become `Except.error` values carrying the data that the Python
exception message carries. -/

abbrev RawFile := List (List (Option String))

/-- Exceptions raised inside `load_and_normalize_csv`. -/
inductive PyErr where
  | valueErrorNoData : String → PyErr
  | valueErrorHeader : String → List String → PyErr
  | keyError : String → PyErr
deriving DecidableEq, Repr

/-- A pandas DataFrame after header promotion: named columns and rows of
optional strings. -/
structure Table where
  header : List String
  rows : List (List (Option String))
deriving DecidableEq, Repr

/-- Python `.fillna('').astype(str)` on one cell. -/
def fillStr (c : Option String) : String :=
  c.getD ""

/-- Python `.astype(str)` on one cell without `fillna`: `NaN` becomes
the string `"nan"`. -/
def nanStr : Option String → String
  | none => "nan"
  | some s => s

/-- The aggregate-row mask of `_filter_aggregate_rows` (lines 49-54):
Symbol starts with `"Total"`, and Code, `T. Price`, `C. Price` are all
empty (the prices after stripping). -/
def isAggregateRow (row : List (Option String)) (iSym iCode iTP iCP : Nat) : Bool :=
  py_startswith (fillStr (row.getD iSym none)) "Total"
    && fillStr (row.getD iCode none) == ""
    && pyStrip (fillStr (row.getD iTP none)) == ""
    && pyStrip (fillStr (row.getD iCP none)) == ""

/-- Embedding of `trades_cleaning._filter_aggregate_rows` (lines 37-56).
The pandas column lookups `df['Symbol']`, `df['Code']`,
`df['T. Price']`, `df['C. Price']` run in that order and raise
`KeyError` on a missing column. -/
def _filter_aggregate_rows (t : Table) : Except PyErr Table :=
  match t.header.findIdx? (· == "Symbol") with
  | none => .error (.keyError "Symbol")
  | some iSym =>
    match t.header.findIdx? (· == "Code") with
    | none => .error (.keyError "Code")
    | some iCode =>
      match t.header.findIdx? (· == "T. Price") with
      | none => .error (.keyError "T. Price")
      | some iTP =>
        match t.header.findIdx? (· == "C. Price") with
        | none => .error (.keyError "C. Price")
        | some iCP =>
          .ok { header := t.header,
                rows := t.rows.filter
                  (fun row => !(isAggregateRow row iSym iCode iTP iCP)) }

/-- Step 2 of `load_and_normalize_csv`: drop rows that are completely
empty (`dropna(axis=0, how='all')`). -/
def nonEmptyRows (raw : RawFile) : RawFile :=
  raw.filter (fun row => row.any (fun c => c.isSome))

/-- The positional columns kept by `dropna(axis=1, how='all')`: those of
the 20 read columns holding at least one non-`NaN` cell. -/
def keptColumns (raw : RawFile) : List Nat :=
  (List.range 20).filter (fun j =>
    (nonEmptyRows raw).any (fun row => (row.getD j none).isSome))

/-- One header cell: `astype(str).str.strip()` applied to the first
remaining row. -/
def pyHeaderCell (c : Option String) : String :=
  pyStrip (nanStr c)

/-- The promoted header row of a raw file: the first non-empty row,
restricted to the kept columns, stringified and stripped (step 3 of
`load_and_normalize_csv`). -/
def promotedHeader (raw : RawFile) : List String :=
  match nonEmptyRows raw with
  | [] => []
  | first :: _ => (keptColumns raw).map (fun j => pyHeaderCell (first.getD j none))

/-- Embedding of `trades_cleaning.load_and_normalize_csv` (lines 10-35):
drop all-empty rows and columns, fail on an empty table, check that the
stripped first row contains `"Symbol"` (else `ValueError` naming the
file and the row), promote it to the header, drop columns whose header
is `''` or `'nan'`, and apply `_filter_aggregate_rows`. -/
def load_and_normalize_csv (filepath : String) (raw : RawFile) : Except PyErr Table :=
  match nonEmptyRows raw with
  | [] => .error (.valueErrorNoData filepath)
  | first :: body =>
    let header := (keptColumns raw).map (fun j => pyHeaderCell (first.getD j none))
    if header.contains "Symbol" then
      _filter_aggregate_rows
        { header := header.filter (fun c => c != "" && c != "nan"),
          rows := body.map (fun row =>
            ((header.zip ((keptColumns raw).map (fun j => row.getD j none))).filter
              (fun hc => hc.1 != "" && hc.1 != "nan")).map (fun hc => hc.2)) }
    else .error (.valueErrorHeader filepath header)

/-- The batch loop of `trades_cleaning.__main__` (lines 126-131): each
file is loaded under `try`, and a file whose load raises any exception
is skipped while the loop continues with the remaining files. -/
def process_files (files : List (String × RawFile)) : List Table :=
  files.filterMap (fun p => (load_and_normalize_csv p.1 p.2).toOption)

theorem promotedHeader_cons {raw : RawFile} {first : List (Option String)}
    {body : RawFile} (h : nonEmptyRows raw = first :: body) :
    promotedHeader raw = (keptColumns raw).map (fun j => pyHeaderCell (first.getD j none)) := by
  unfold promotedHeader
  rw [h]

theorem contains_false_of_nmem {a : String} {l : List String} (h : a ∉ l) :
    l.contains a = false := by
  rw [← Bool.not_eq_true]
  intro hc
  exact h (List.elem_iff.mp hc)

theorem except_toOption_error {ε α : Type} {x : Except ε α} {e : ε}
    (h : x = .error e) : x.toOption = none := by
  rw [h]
  rfl

/-- Claim C7: under the all-empty-trim strategy, when the table is
non-empty but the stripped first remaining row does not contain the
literal `"Symbol"`, `load_and_normalize_csv` fails with a `ValueError`
carrying the file path and the offending (stripped) row content; and
the batch caller skips any file whose load raises, continuing with the
files before and after it. -/
theorem load_header_check_failure :
    (∀ (fp : String) (raw : RawFile),
        nonEmptyRows raw ≠ [] →
        "Symbol" ∉ promotedHeader raw →
        load_and_normalize_csv fp raw =
          .error (.valueErrorHeader fp (promotedHeader raw))) ∧
    (∀ (pre post : List (String × RawFile)) (f : String × RawFile) (e : PyErr),
        load_and_normalize_csv f.1 f.2 = .error e →
        process_files (pre ++ f :: post) = process_files pre ++ process_files post) := by
  constructor
  · intro fp raw h1 h2
    obtain ⟨first, body, hfb⟩ := List.exists_cons_of_ne_nil h1
    have hph := promotedHeader_cons hfb
    simp only [load_and_normalize_csv, hfb]
    rw [← hph, contains_false_of_nmem h2]
    simp
  · intro pre post f e h
    unfold process_files
    rw [List.filterMap_append, List.filterMap_cons, except_toOption_error h]

/-- Witness for `load_header_check_failure`: a two-row file whose first
row lacks a `"Symbol"` cell is rejected with the file path and the
stripped row (the empty first-row cell of a kept column reads `"nan"`),
and the batch skips it while keeping the surrounding files' results. -/
theorem load_header_check_failure_witness :
    load_and_normalize_csv "bad.csv" [[some " a ", none], [some "b", some "c"]] =
      .error (.valueErrorHeader "bad.csv" ["a", "nan"]) ∧
    process_files ([] ++ ("bad.csv", [[some " a ", none], [some "b", some "c"]]) :: []) =
      process_files [] ++ process_files [] := by
  have h1 := load_header_check_failure.1 "bad.csv"
    [[some " a ", none], [some "b", some "c"]] (by decide) (by decide)
  refine ⟨?_, ?_⟩
  · rw [h1]
    have hph : promotedHeader [[some " a ", none], [some "b", some "c"]] = ["a", "nan"] := by
      decide
    rw [hph]
  · exact load_header_check_failure.2 [] [] _ _ h1

/-! ## Metadata-row removal (`cleaning.StatementCleaner._remove_metadata_rows`)

Lines 93-122 of `cleaning.py`: first drop rows whose `Total` cell is
`NaN` (when a `Total` column exists), then drop rows whose stringified
`Symbol` cell (no `fillna`, so `NaN` reads `"nan"`) starts with
`"Carried by"` or `"Total "` or equals one of the fixed section labels. -/

/-- The symbol-based removal mask of `_remove_metadata_rows`
(lines 110-120). -/
def metaSymbolMask (s : String) : Bool :=
  py_startswith s "Carried by" || py_startswith s "Total " || s == "Stocks"
    || s == "Crypto" || s == "Forex" || s == "GBP" || s == "BTC.USD-PAXOS"

/-- Embedding of `StatementCleaner._remove_metadata_rows` (lines 93-122);
both column accesses are guarded by `in self.df.columns`, so the
function is total. -/
def _remove_metadata_rows (t : Table) : Table :=
  let t1 : Table :=
    match t.header.findIdx? (· == "Total") with
    | some iTot =>
      { header := t.header,
        rows := t.rows.filter (fun row => (row.getD iTot none).isSome) }
    | none => t
  match t1.header.findIdx? (· == "Symbol") with
  | some iSym =>
    { header := t1.header,
      rows := t1.rows.filter (fun row => !(metaSymbolMask (nanStr (row.getD iSym none)))) }
  | none => t1

theorem filter_twice {α : Type} (p : α → Bool) (l : List α) :
    (l.filter p).filter p = l.filter p := by
  simp [List.filter_filter]

theorem filter_four {α : Type} (p q : α → Bool) (l : List α) :
    (((l.filter p).filter q).filter p).filter q = (l.filter p).filter q := by
  simp only [List.filter_filter]
  apply List.filter_congr
  intro a _
  cases hq : q a <;> cases hp : p a <;> rfl

/-- Claim C8: the aggregate/metadata row filters are idempotent: a
second application of `_filter_aggregate_rows` to a successful result
returns that result unchanged (removed rows do not reappear and no
surviving row matches the mask again), and `_remove_metadata_rows`
composed with itself equals a single application. -/
theorem row_filters_idempotent :
    (∀ t t' : Table, _filter_aggregate_rows t = .ok t' →
        _filter_aggregate_rows t' = .ok t') ∧
    (∀ t : Table, _remove_metadata_rows (_remove_metadata_rows t) = _remove_metadata_rows t) := by
  constructor
  · intro t t' h
    unfold _filter_aggregate_rows at h
    cases hSym : t.header.findIdx? (· == "Symbol") with
    | none => rw [hSym] at h; exact Except.noConfusion h
    | some iSym =>
    rw [hSym] at h
    cases hCode : t.header.findIdx? (· == "Code") with
    | none => rw [hCode] at h; exact Except.noConfusion h
    | some iCode =>
    rw [hCode] at h
    cases hTP : t.header.findIdx? (· == "T. Price") with
    | none => rw [hTP] at h; exact Except.noConfusion h
    | some iTP =>
    rw [hTP] at h
    cases hCP : t.header.findIdx? (· == "C. Price") with
    | none => rw [hCP] at h; exact Except.noConfusion h
    | some iCP =>
    rw [hCP] at h
    injection h with h
    subst h
    unfold _filter_aggregate_rows
    simp only [hSym, hCode, hTP, hCP, filter_twice]
  · intro t
    unfold _remove_metadata_rows
    cases hTot : t.header.findIdx? (· == "Total") with
    | none =>
      cases hSym : t.header.findIdx? (· == "Symbol") with
      | none => simp only [hTot, hSym]
      | some iSym => simp only [hTot, hSym, filter_twice]
    | some iTot =>
      cases hSym : t.header.findIdx? (· == "Symbol") with
      | none => simp only [hTot, hSym, filter_twice]
      | some iSym => simp only [hTot, hSym, filter_four]

/-- Witness for `row_filters_idempotent`: a concrete table whose
aggregate row is removed once; the second application leaves the
result unchanged. -/
theorem row_filters_idempotent_witness :
    _filter_aggregate_rows
        { header := ["Symbol", "Code", "T. Price", "C. Price"],
          rows := [[some "AMAT", some "O", some "220", some "1"]] } =
      .ok { header := ["Symbol", "Code", "T. Price", "C. Price"],
            rows := [[some "AMAT", some "O", some "220", some "1"]] } :=
  row_filters_idempotent.1
    { header := ["Symbol", "Code", "T. Price", "C. Price"],
      rows := [[some "Total stuff", none, some " ", none],
               [some "AMAT", some "O", some "220", some "1"]] }
    { header := ["Symbol", "Code", "T. Price", "C. Price"],
      rows := [[some "AMAT", some "O", some "220", some "1"]] }
    (by rfl)

theorem findIdx_none_of_nmem {a : String} {l : List String} (h : a ∉ l) :
    l.findIdx? (· == a) = none := by
  apply List.findIdx?_eq_none_iff.mpr
  intro x hx
  exact beq_eq_false_iff_ne.mpr (fun hxa => h (hxa ▸ hx))

theorem findIdx_some_of_mem {a : String} {l : List String} (h : a ∈ l) :
    ∃ i, l.findIdx? (· == a) = some i := by
  cases hi : l.findIdx? (· == a) with
  | some i => exact ⟨i, rfl⟩
  | none =>
    have := (List.findIdx?_eq_none_iff.mp hi) a h
    simp at this

theorem filter_aggregate_keyError (hdr : List String)
    (rows : List (List (Option String)))
    (hSym : "Symbol" ∈ hdr)
    (hmiss : "Code" ∉ hdr ∨ "T. Price" ∉ hdr ∨ "C. Price" ∉ hdr) :
    ∃ c, c ∈ (["Code", "T. Price", "C. Price"] : List String) ∧
      _filter_aggregate_rows ⟨hdr, rows⟩ = .error (.keyError c) := by
  obtain ⟨iSym, hiSym⟩ := findIdx_some_of_mem hSym
  by_cases hCode : "Code" ∈ hdr
  · obtain ⟨iCode, hiCode⟩ := findIdx_some_of_mem hCode
    by_cases hTP : "T. Price" ∈ hdr
    · have hCP : "C. Price" ∉ hdr := by
        rcases hmiss with h | h | h
        · exact absurd hCode h
        · exact absurd hTP h
        · exact h
      obtain ⟨iTP, hiTP⟩ := findIdx_some_of_mem hTP
      refine ⟨"C. Price", by decide, ?_⟩
      unfold _filter_aggregate_rows
      simp only [hiSym, hiCode, hiTP, findIdx_none_of_nmem hCP]
    · refine ⟨"T. Price", by decide, ?_⟩
      unfold _filter_aggregate_rows
      simp only [hiSym, hiCode, findIdx_none_of_nmem hTP]
  · refine ⟨"Code", by decide, ?_⟩
    unfold _filter_aggregate_rows
    simp only [hiSym, findIdx_none_of_nmem hCode]

/-- Claim C10: when the promoted header passes the `"Symbol"` check but
lacks any of the columns `"Code"`, `"T. Price"`, `"C. Price"`, the
unconditional column lookups inside `_filter_aggregate_rows` raise a
`KeyError` that `load_and_normalize_csv` does not catch, so the whole
file is rejected and the batch caller skips it. -/
theorem load_missing_price_column :
    ∀ (fp : String) (raw : RawFile) (rest : List (String × RawFile)),
      nonEmptyRows raw ≠ [] →
      "Symbol" ∈ promotedHeader raw →
      ("Code" ∉ promotedHeader raw ∨ "T. Price" ∉ promotedHeader raw ∨
        "C. Price" ∉ promotedHeader raw) →
      (∃ c, c ∈ (["Code", "T. Price", "C. Price"] : List String) ∧
          load_and_normalize_csv fp raw = .error (.keyError c)) ∧
      process_files ((fp, raw) :: rest) = process_files rest := by
  intro fp raw rest h1 h2 h3
  obtain ⟨first, body, hfb⟩ := List.exists_cons_of_ne_nil h1
  have hph := promotedHeader_cons hfb
  have hstep : load_and_normalize_csv fp raw =
      _filter_aggregate_rows
        { header := (promotedHeader raw).filter (fun c => c != "" && c != "nan"),
          rows := body.map (fun row =>
            (((promotedHeader raw).zip ((keptColumns raw).map (fun j => row.getD j none))).filter
              (fun hc => hc.1 != "" && hc.1 != "nan")).map (fun hc => hc.2)) } := by
    simp only [load_and_normalize_csv, hfb]
    rw [← hph]
    rw [show (promotedHeader raw).contains "Symbol" = true from List.elem_iff.mpr h2]
    simp
  have hSym' : "Symbol" ∈ (promotedHeader raw).filter (fun c => c != "" && c != "nan") :=
    List.mem_filter.mpr ⟨h2, by decide⟩
  have hmiss' : "Code" ∉ (promotedHeader raw).filter (fun c => c != "" && c != "nan") ∨
      "T. Price" ∉ (promotedHeader raw).filter (fun c => c != "" && c != "nan") ∨
      "C. Price" ∉ (promotedHeader raw).filter (fun c => c != "" && c != "nan") := by
    rcases h3 with h | h | h
    · exact Or.inl (fun hm => h (List.mem_filter.mp hm).1)
    · exact Or.inr (Or.inl (fun hm => h (List.mem_filter.mp hm).1))
    · exact Or.inr (Or.inr (fun hm => h (List.mem_filter.mp hm).1))
  obtain ⟨c, hc1, hc2⟩ := filter_aggregate_keyError _ _ hSym' hmiss'
  rw [← hstep] at hc2
  refine ⟨⟨c, hc1, hc2⟩, ?_⟩
  unfold process_files
  rw [List.filterMap_cons, except_toOption_error hc2]

/-- Witness for `load_missing_price_column`: a file whose header row is
`Symbol, Qty` passes the header check but lacks the price and code
columns, so its load raises `KeyError` and the batch drops it. -/
theorem load_missing_price_column_witness :
    (∃ c, c ∈ (["Code", "T. Price", "C. Price"] : List String) ∧
        load_and_normalize_csv "f.csv" [[some "Symbol", some "Qty"], [some "AMAT", some "5"]] =
          .error (.keyError c)) ∧
    process_files [("f.csv", [[some "Symbol", some "Qty"], [some "AMAT", some "5"]])] =
      process_files [] :=
  load_missing_price_column "f.csv" [[some "Symbol", some "Qty"], [some "AMAT", some "5"]] []
    (by decide) (by decide) (by decide)

/-! ## Grid reconstruction (`aws_textract_table_extractor._table_to_dataframe`)

Lines 147-191: the CELL children of a TABLE block are collected in
relationship order (`cell_blocks`); the grid dimensions are the maxima
of the 1-based `RowIndex`/`ColumnIndex`; an all-empty-string grid is
allocated; then each cell writes its extracted text into every
in-bounds position of its `RowSpan × ColumnSpan` footprint, but only
where the grid still holds the empty string.  A cell is modelled by its
four indices (with the `.get(_, 1)` defaults already applied) and its
extracted text. -/

abbrev Grid := List (List String)

structure Cell where
  rowIndex : Nat
  colIndex : Nat
  rowSpan : Nat
  colSpan : Nat
  text : String
deriving DecidableEq, Repr

/-- `grid[r][c]` (out-of-bounds reads default to `""`; the code only
reads in bounds). -/
def getCell (g : Grid) (r c : Nat) : String :=
  (g.getD r []).getD c ""

/-- `grid[r][c] = v` (out-of-bounds writes are no-ops; the code only
writes in bounds). -/
def setCell (g : Grid) (r c : Nat) (v : String) : Grid :=
  g.set r ((g.getD r []).set c v)

/-- The body of the innermost loop (lines 184-189): bounds check, then
conditional first-writer-wins assignment. -/
def fillPos (maxRow maxCol : Nat) (text : String) (g : Grid) (r c : Nat) : Grid :=
  if r < maxRow ∧ c < maxCol then
    if getCell g r c = "" then setCell g r c text else g
  else g

/-- The two nested span loops for one cell (lines 182-189). -/
def fillCell (maxRow maxCol : Nat) (g : Grid) (cell : Cell) : Grid :=
  (List.range cell.rowSpan).foldl (fun g1 i =>
    (List.range cell.colSpan).foldl (fun g2 j =>
      fillPos maxRow maxCol cell.text g2 (cell.rowIndex - 1 + i) (cell.colIndex - 1 + j)) g1) g

/-- Embedding of `_table_to_dataframe` (lines 147-191) applied to the
resolved CELL children of one TABLE block, in processing order:
`None` when the table has no CELL children; otherwise the filled grid
of `max RowIndex × max ColumnIndex` empty strings. -/
def _table_to_dataframe (cells : List Cell) : Option Grid :=
  match cells with
  | [] => none
  | _ :: _ =>
    let maxRow := (cells.map (fun c => c.rowIndex)).foldl max 0
    let maxCol := (cells.map (fun c => c.colIndex)).foldl max 0
    some (cells.foldl (fillCell maxRow maxCol)
      (List.replicate maxRow (List.replicate maxCol "")))

theorem getD_set_ne {α : Type} (l : List α) (i j : Nat) (a d : α) (h : i ≠ j) :
    (l.set i a).getD j d = l.getD j d := by
  induction l generalizing i j with
  | nil => rfl
  | cons x xs ih =>
    cases i with
    | zero =>
      cases j with
      | zero => exact absurd rfl h
      | succ j => rfl
    | succ i =>
      cases j with
      | zero => rfl
      | succ j => exact ih i j (fun hij => h (by rw [hij]))

theorem getD_set_self {α : Type} (l : List α) (i : Nat) (a d : α) :
    (l.set i a).getD i d = if i < l.length then a else d := by
  induction l generalizing i with
  | nil => simp [List.set]
  | cons x xs ih =>
    cases i with
    | zero => simp
    | succ i => simpa using ih i

theorem getD_eq_default {α : Type} (l : List α) (i : Nat) (d : α)
    (h : l.length ≤ i) : l.getD i d = d := by
  induction l generalizing i with
  | nil => rfl
  | cons x xs ih =>
    cases i with
    | zero => simp at h
    | succ i => simpa using ih i (by simpa using h)

theorem getCell_setCell_ne (g : Grid) (r c r' c' : Nat) (v : String)
    (h : r ≠ r' ∨ c ≠ c') :
    getCell (setCell g r c v) r' c' = getCell g r' c' := by
  rcases h with h | h
  · unfold getCell setCell
    rw [getD_set_ne _ _ _ _ _ h]
  · by_cases hr : r = r'
    · subst hr
      unfold getCell setCell
      rw [getD_set_self]
      by_cases hlen : r < g.length
      · rw [if_pos hlen, getD_set_ne _ _ _ _ _ h]
      · rw [if_neg hlen]
        rw [getD_eq_default g r [] (Nat.le_of_not_lt hlen)]
    · unfold getCell setCell
      rw [getD_set_ne _ _ _ _ _ hr]

theorem getCell_fillPos_preserve (mR mC : Nat) (t : String) (g : Grid)
    (r c r' c' : Nat) (h : getCell g r' c' ≠ "") :
    getCell (fillPos mR mC t g r c) r' c' = getCell g r' c' := by
  by_cases hrc : r = r' ∧ c = c'
  · obtain ⟨rfl, rfl⟩ := hrc
    unfold fillPos
    rw [if_neg h]
    split <;> rfl
  · unfold fillPos
    split
    · split
      · apply getCell_setCell_ne
        rcases not_and_or.mp hrc with h' | h'
        · exact Or.inl h'
        · exact Or.inr h'
      · rfl
    · rfl

theorem getCell_foldl_preserve {β : Type} (f : Grid → β → Grid) (r c : Nat)
    (hf : ∀ g b, getCell g r c ≠ "" → getCell (f g b) r c = getCell g r c) :
    ∀ (l : List β) (g : Grid), getCell g r c ≠ "" →
      getCell (l.foldl f g) r c = getCell g r c := by
  intro l
  induction l with
  | nil => intro g h; rfl
  | cons b bs ih =>
    intro g h
    rw [List.foldl_cons, ih (f g b) (by rw [hf g b h]; exact h), hf g b h]

theorem getCell_fillCell_preserve (mR mC : Nat) (cell : Cell) (g : Grid)
    (r c : Nat) (h : getCell g r c ≠ "") :
    getCell (fillCell mR mC g cell) r c = getCell g r c := by
  unfold fillCell
  refine getCell_foldl_preserve _ r c ?_ _ g h
  intro g1 i h1
  refine getCell_foldl_preserve _ r c ?_ _ g1 h1
  intro g2 j h2
  exact getCell_fillPos_preserve _ _ _ _ _ _ _ _ h2

/-- Claim C4 counterexample: the claim says that whenever two cells'
spans overlap, the earlier-processed cell's text remains at every
overlapped position; but a cell whose extracted text is the empty
string leaves the position indistinguishable from unwritten, so a
later overlapping cell's text is written there: with an earlier cell of
text `""` and a later one of text `"X"` on the same position, the grid
ends holding `"X"`, not the earlier cell's text. -/
theorem grid_fill_empty_text_overwritten :
    _table_to_dataframe [⟨1, 1, 1, 1, ""⟩, ⟨1, 1, 1, 1, "X"⟩] = some [["X"]] ∧
    ("X" : String) ≠ "" := by
  exact ⟨rfl, by decide⟩

/-- Claim C4 amended: a write happens only where the grid is still
empty, so a position that already holds nonempty text is never changed
by any later-processed cell (first writer of nonempty text wins); for
the 2×2-span cell at 0-based anchor (0,0) all four positions hold its
text when nothing wrote before; and with two overlapping spans the
earlier cell's text remains wherever that text is nonempty.  A cell
whose extracted text is empty leaves its positions empty, and a later
overlapping cell may fill them. -/
theorem grid_fill_first_writer_wins :
    (∀ (mR mC : Nat) (cells : List Cell) (g : Grid) (r c : Nat),
        getCell g r c ≠ "" →
        getCell (cells.foldl (fillCell mR mC) g) r c = getCell g r c) ∧
    _table_to_dataframe [⟨1, 1, 2, 2, "M"⟩, ⟨2, 2, 1, 1, "Y"⟩] =
      some [["M", "M"], ["M", "M"]] ∧
    _table_to_dataframe [⟨1, 1, 1, 2, "A"⟩, ⟨1, 2, 1, 1, "B"⟩] = some [["A", "A"]] := by
  refine ⟨?_, rfl, rfl⟩
  intro mR mC cells g r c h
  exact getCell_foldl_preserve _ r c
    (fun g1 cell h1 => getCell_fillCell_preserve mR mC cell g1 r c h1) cells g h

/-- Witness for `grid_fill_first_writer_wins`: a position holding
`"A"` is untouched by a later cell that covers it. -/
theorem grid_fill_first_writer_wins_witness :
    getCell (([⟨1, 1, 1, 1, "B"⟩] : List Cell).foldl (fillCell 1 1) [["A"]]) 0 0 =
      getCell [["A"]] 0 0 :=
  grid_fill_first_writer_wins.1 1 1 [⟨1, 1, 1, 1, "B"⟩] [["A"]] 0 0 (by decide)

/-! ## Final ledger stage (`trades_cleaning.__main__`, lines 163-174)

After projection to the canonical columns, the script does
`pd.to_datetime(_, errors='coerce')`, drops rows whose date became
`NaT`, and sorts with `sort_values(by=['Date', 'Symbol'])`.  A pandas
multi-column sort uses a lexicographic stable sort.  The external date
parser is a parameter `parse` (dates are represented by their ordinal);
a ledger row keeps its raw date string, its symbol, and an opaque
payload standing for the remaining canonical columns. -/

/-- A row entering the final stage: raw `Date/Time` string, `Symbol`,
and the remaining canonical columns abstracted as an opaque payload. -/
structure RawRow where
  date : String
  symbol : String
  payload : Nat
deriving DecidableEq, Repr

/-- A row of the final ledger: parsed date (ordinal), symbol, payload. -/
structure LedgerRow where
  date : Nat
  symbol : String
  payload : Nat
deriving DecidableEq, Repr

/-- `pd.to_datetime(_, errors='coerce')` + `dropna` + `.dt.date` on one
row: `none` when the date fails to parse. -/
def toLedgerRow (parse : String → Option Nat) (r : RawRow) : Option LedgerRow :=
  (parse r.date).map (fun d => ⟨d, r.symbol, r.payload⟩)

/-- The sort key of `sort_values(by=['Date', 'Symbol'])`. -/
def rowKey (x : LedgerRow) : Nat × String :=
  (x.date, x.symbol)

/-- Lexicographic order on (date, symbol): date ascending, then symbol
ascending. -/
def rowLE (a b : LedgerRow) : Prop :=
  a.date < b.date ∨ (a.date = b.date ∧ a.symbol ≤ b.symbol)

instance : DecidableRel rowLE := fun a b => by
  unfold rowLE
  infer_instance

instance : IsTotal LedgerRow rowLE := ⟨by
  intro a b
  rcases Nat.lt_trichotomy a.date b.date with h | h | h
  · exact Or.inl (Or.inl h)
  · rcases le_total a.symbol b.symbol with hs | hs
    · exact Or.inl (Or.inr ⟨h, hs⟩)
    · exact Or.inr (Or.inr ⟨h.symm, hs⟩)
  · exact Or.inr (Or.inl h)⟩

instance : IsTrans LedgerRow rowLE := ⟨by
  intro a b c hab hbc
  rcases hab with h1 | ⟨h1, h1s⟩ <;> rcases hbc with h2 | ⟨h2, h2s⟩
  · exact Or.inl (h1.trans h2)
  · exact Or.inl (h2 ▸ h1)
  · exact Or.inl (h1 ▸ h2)
  · exact Or.inr ⟨h1.trans h2, le_trans h1s h2s⟩⟩

/-- Embedding of the final stage (lines 170-174): parse dates, drop the
rows whose date fails to parse, stably sort the rest by (date, symbol).
`List.insertionSort` is a stable sort, matching pandas' stable
multi-column lexsort. -/
def final_stage (parse : String → Option Nat) (rows : List RawRow) : List LedgerRow :=
  List.insertionSort rowLE (rows.filterMap (toLedgerRow parse))

theorem rowLE_of_key_eq {a b : LedgerRow} (h : rowKey a = rowKey b) : rowLE a b := by
  unfold rowKey at h
  rw [Prod.mk.injEq] at h
  exact Or.inr ⟨h.1, le_of_eq h.2⟩

theorem filter_orderedInsert_eq (a : LedgerRow) (k : Nat × String) (hk : rowKey a = k) :
    ∀ l : List LedgerRow,
      (List.orderedInsert rowLE a l).filter (fun x => decide (rowKey x = k)) =
        a :: l.filter (fun x => decide (rowKey x = k))
  | [] => by simp [List.orderedInsert, hk]
  | b :: l => by
    by_cases hab : rowLE a b
    · rw [List.orderedInsert, if_pos hab]
      simp [List.filter_cons, hk]
    · rw [List.orderedInsert, if_neg hab]
      have hbk : ¬ rowKey b = k := by
        intro hbk
        exact hab (rowLE_of_key_eq (hk.trans hbk.symm))
      rw [List.filter_cons, List.filter_cons]
      simp [hbk, filter_orderedInsert_eq a k hk l]

theorem filter_orderedInsert_ne (a : LedgerRow) (k : Nat × String) (hk : ¬ rowKey a = k) :
    ∀ l : List LedgerRow,
      (List.orderedInsert rowLE a l).filter (fun x => decide (rowKey x = k)) =
        l.filter (fun x => decide (rowKey x = k))
  | [] => by simp [List.orderedInsert, hk]
  | b :: l => by
    by_cases hab : rowLE a b
    · rw [List.orderedInsert, if_pos hab]
      simp [List.filter_cons, hk]
    · rw [List.orderedInsert, if_neg hab]
      rw [List.filter_cons, List.filter_cons]
      rw [filter_orderedInsert_ne a k hk l]

theorem insertionSort_stable_filter (k : Nat × String) :
    ∀ l : List LedgerRow,
      (List.insertionSort rowLE l).filter (fun x => decide (rowKey x = k)) =
        l.filter (fun x => decide (rowKey x = k))
  | [] => rfl
  | a :: l => by
    rw [List.insertionSort]
    by_cases hk : rowKey a = k
    · rw [filter_orderedInsert_eq a k hk _, insertionSort_stable_filter k l]
      simp [List.filter_cons, hk]
    · rw [filter_orderedInsert_ne a k hk _, insertionSort_stable_filter k l]
      simp [List.filter_cons, hk]

/-- Claim C5: in the final ledger stage, every row whose date fails to
parse is dropped (the output contains exactly the images of the rows
with parseable dates), the output is sorted by (date ascending, symbol
ascending), and the sort is stable: rows tied on (date, symbol) keep
their pre-sort relative order (the filtered subsequence at any fixed
key is unchanged by the sort). -/
theorem final_stage_spec :
    ∀ (parse : String → Option Nat) (rows : List RawRow),
      List.Sorted rowLE (final_stage parse rows) ∧
      (∀ x : LedgerRow, x ∈ final_stage parse rows ↔
        ∃ r ∈ rows, parse r.date = some x.date ∧ x.symbol = r.symbol ∧
          x.payload = r.payload) ∧
      (∀ k : Nat × String,
        (final_stage parse rows).filter (fun x => decide (rowKey x = k)) =
          (rows.filterMap (toLedgerRow parse)).filter (fun x => decide (rowKey x = k))) := by
  intro parse rows
  refine ⟨List.sorted_insertionSort rowLE _, ?_, fun k => insertionSort_stable_filter k _⟩
  intro x
  unfold final_stage
  rw [List.mem_insertionSort, List.mem_filterMap]
  constructor
  · rintro ⟨r, hr, hfr⟩
    obtain ⟨d, hd, hmk⟩ := Option.map_eq_some'.mp hfr
    refine ⟨r, hr, ?_, ?_, ?_⟩
    · rw [← hmk]
      exact hd
    · rw [← hmk]
    · rw [← hmk]
  · rintro ⟨r, hr, h1, h2, h3⟩
    refine ⟨r, hr, ?_⟩
    unfold toLedgerRow
    rw [h1]
    obtain ⟨xd, xs, xp⟩ := x
    simp only [Option.map_some']
    simp at h2 h3
    rw [h2, h3]

/-- Witness for `final_stage_spec`: a concrete run with one unparseable
date and a (date, symbol) tie. -/
theorem final_stage_spec_witness :
    List.Sorted rowLE
      (final_stage (fun s => if s = "bad" then none else some 7)
        [⟨"d", "B", 0⟩, ⟨"bad", "A", 1⟩, ⟨"d", "B", 2⟩]) ∧
    (∀ x : LedgerRow,
      x ∈ final_stage (fun s => if s = "bad" then none else some 7)
            [⟨"d", "B", 0⟩, ⟨"bad", "A", 1⟩, ⟨"d", "B", 2⟩] ↔
        ∃ r ∈ [(⟨"d", "B", 0⟩ : RawRow), ⟨"bad", "A", 1⟩, ⟨"d", "B", 2⟩],
          (if r.date = "bad" then none else some 7) = some x.date ∧
            x.symbol = r.symbol ∧ x.payload = r.payload) ∧
    (∀ k : Nat × String,
      (final_stage (fun s => if s = "bad" then none else some 7)
          [⟨"d", "B", 0⟩, ⟨"bad", "A", 1⟩, ⟨"d", "B", 2⟩]).filter
          (fun x => decide (rowKey x = k)) =
        ([(⟨"d", "B", 0⟩ : RawRow), ⟨"bad", "A", 1⟩, ⟨"d", "B", 2⟩].filterMap
            (toLedgerRow (fun s => if s = "bad" then none else some 7))).filter
          (fun x => decide (rowKey x = k))) :=
  final_stage_spec (fun s => if s = "bad" then none else some 7)
    [⟨"d", "B", 0⟩, ⟨"bad", "A", 1⟩, ⟨"d", "B", 2⟩]
